import Mathlib

/-!
Shallow embedding of the naglfar layout engine (src/layout.rs) in Lean 4.

Numeric model: the source stores lengths in the fixed-point unit `Au`
(app_units) and computes in `f64` pixels.  Both are idealized here as exact
rationals: `Au::from_f64_px` and `Au::to_f64_px` become the identity, while
the truncating conversions (`Au::to_px` and Rust's `as i32` cast, both of
which truncate toward zero) are modelled by `ratTrunc`.

The style tree, CSS `Value`, and the font-metrics context come from modules
of this repository that are outside src/ (style.rs, css.rs, dom.rs, cairo);
they are modelled from the spec where noted, faithful to how layout.rs
consumes them.
-/

namespace Naglfar

/-- The fixed default font size (`DEFAULT_FONT_SIZE`, 16 px). -/
def DEFAULT_FONT_SIZE : ℚ := 16

/-- `DEFAULT_LINE_HEIGHT = DEFAULT_FONT_SIZE * 1.2`. -/
def DEFAULT_LINE_HEIGHT : ℚ := DEFAULT_FONT_SIZE * (6 / 5)

/-- Truncation toward zero of a rational, modelling both `Au::to_px` and
Rust's `f64 as i32` cast. -/
def ratTrunc (q : ℚ) : ℤ := q.num.tdiv (q.den : ℤ)

/-- `Rect` from layout.rs (all sizes in px, idealized as ℚ). -/
structure Rect where
  x : ℚ
  y : ℚ
  width : ℚ
  height : ℚ
deriving DecidableEq, Repr

/-- `EdgeSizes` from layout.rs. -/
structure EdgeSizes where
  left : ℚ
  right : ℚ
  top : ℚ
  bottom : ℚ
deriving DecidableEq, Repr

/-- `Dimensions` from layout.rs: content rectangle plus padding, border and
margin edge sizes. -/
structure Dimensions where
  content : Rect
  padding : EdgeSizes
  border : EdgeSizes
  margin : EdgeSizes
deriving DecidableEq, Repr

/-- `Default::default()` for `Rect`: all zero. -/
def Rect.zero : Rect := ⟨0, 0, 0, 0⟩

/-- `Default::default()` for `EdgeSizes`: all zero. -/
def EdgeSizes.zero : EdgeSizes := ⟨0, 0, 0, 0⟩

/-- `Default::default()` for `Dimensions`: all zero. -/
def Dimensions.zero : Dimensions := ⟨Rect.zero, EdgeSizes.zero, EdgeSizes.zero, EdgeSizes.zero⟩

/-- `Rect::expanded_by` from layout.rs. -/
def Rect.expanded_by (self : Rect) (edge : EdgeSizes) : Rect :=
  { x := self.x - edge.left
  , y := self.y - edge.top
  , width := self.width + edge.left + edge.right
  , height := self.height + edge.top + edge.bottom }

/-- `Dimensions::padding_box` from layout.rs. -/
def Dimensions.padding_box (self : Dimensions) : Rect :=
  self.content.expanded_by self.padding

/-- `Dimensions::border_box` from layout.rs. -/
def Dimensions.border_box (self : Dimensions) : Rect :=
  self.padding_box.expanded_by self.border

/-- `Dimensions::margin_box` from layout.rs. -/
def Dimensions.margin_box (self : Dimensions) : Rect :=
  self.border_box.expanded_by self.margin

/-- Rectangle containment: `outer ⊇ inner` as axis-aligned boxes. -/
def Rect.containsRect (outer inner : Rect) : Prop :=
  outer.x ≤ inner.x ∧ outer.y ≤ inner.y ∧
    inner.x + inner.width ≤ outer.x + outer.width ∧
    inner.y + inner.height ≤ outer.y + outer.height

/-- Modelled from the spec: the CSS `Value` of the css module (not under
src/) is "either an explicit numeric length or the auto sentinel"; the only
unit is px, so `Length(f, Px)` is `length f` and keywords such as `auto`
are `keyword s`. -/
inductive Value where
  | length (l : ℚ)
  | keyword (s : String)
deriving DecidableEq, Repr

/-- `Value::to_px`: a length in px, other values contribute 0. -/
def Value.to_px : Value → ℚ
  | .length l => l
  | .keyword _ => 0

@[simp]
theorem Value.to_px_length (l : ℚ) : (Value.length l).to_px = l := rfl

@[simp]
theorem Value.to_px_keyword (s : String) : (Value.keyword s).to_px = 0 := rfl

/-- Modelled from the spec: the resolved display classification of a style
node, `{block, inline, none}` (style module, not under src/). -/
inductive Display where
  | block
  | inline
  | none
deriving DecidableEq, Repr

/-- `NodeType` of the dom module (not under src/): layout.rs only matches
`Element(_)` against `Text(body)`, so element payloads are dropped. -/
inductive NodeType where
  | element
  | text (s : String)
deriving DecidableEq, Repr

/-- Modelled from the spec: a style node exposes declared properties (for
`value` and `lookup`), the underlying node content classification, the
resolved display classification and ordered children. -/
inductive StyledNode where
  | mk (props : List (String × Value)) (data : NodeType) (disp : Display)
       (children : List StyledNode)

/-- The declared properties of a style node. -/
def StyledNode.props : StyledNode → List (String × Value)
  | .mk p _ _ _ => p

/-- The underlying DOM data of a style node. -/
def StyledNode.data : StyledNode → NodeType
  | .mk _ dt _ _ => dt

/-- The resolved display classification of a style node. -/
def StyledNode.display : StyledNode → Display
  | .mk _ _ d _ => d

/-- The ordered children of a style node. -/
def StyledNode.children : StyledNode → List StyledNode
  | .mk _ _ _ cs => cs

/-- Modelled from the spec: `StyledNode::value(name)` returns the declared
value of the property, if any. -/
def StyledNode.value (s : StyledNode) (name : String) : Option Value :=
  (s.props.find? (fun p => p.1 == name)).map Prod.snd

/-- Modelled from the spec: `StyledNode::lookup(name, fallback, default)`
returns the most specific declared value, else the shorthand value, else
the given default. -/
def StyledNode.lookup (s : StyledNode) (name fallback : String) (default : Value) : Value :=
  ((s.value name).getD ((s.value fallback).getD default))

/-- `BoxType` from layout.rs: block node, inline node (each holding a style
node reference) or anonymous block. -/
inductive BoxType where
  | blockNode (s : StyledNode)
  | inlineNode (s : StyledNode)
  | anonymousBlock

/-- `LayoutBox` from layout.rs: box type, dimensions and ordered children. -/
inductive LayoutBox where
  | mk (box_type : BoxType) (dimensions : Dimensions) (children : List LayoutBox)

/-- The `box_type` field of a `LayoutBox`. -/
def LayoutBox.box_type : LayoutBox → BoxType
  | .mk bt _ _ => bt

/-- The `dimensions` field of a `LayoutBox`. -/
def LayoutBox.dimensions : LayoutBox → Dimensions
  | .mk _ d _ => d

/-- The `children` field of a `LayoutBox`. -/
def LayoutBox.children : LayoutBox → List LayoutBox
  | .mk _ _ cs => cs

/-- `LayoutBox::new`: fresh box with default (all-zero) dimensions and no
children. -/
def LayoutBox.new (bt : BoxType) : LayoutBox := .mk bt Dimensions.zero []

/-- Whether a box type is `AnonymousBlock` (the pattern tested by
`get_inline_container`). -/
def BoxType.isAnonymousBlock : BoxType → Bool
  | .anonymousBlock => true
  | _ => false

/-- Push a box at the end of the children list (`children.push` in Rust). -/
def LayoutBox.pushChild (b : LayoutBox) (c : LayoutBox) : LayoutBox :=
  match b with
  | .mk bt d cs => .mk bt d (cs ++ [c])

/-- `get_inline_container` from layout.rs, fused with the subsequent
`children.push(child)` of `build_layout_tree`: an inline or anonymous box
receives the child directly; a block box appends it into its last child if
that child is already an `AnonymousBlock`, otherwise first pushes a fresh
`AnonymousBlock` and appends into that. -/
def LayoutBox.pushInline (b : LayoutBox) (c : LayoutBox) : LayoutBox :=
  match b with
  | .mk bt d cs =>
    match bt with
    | .inlineNode _ | .anonymousBlock => .mk bt d (cs ++ [c])
    | .blockNode _ =>
      match cs.getLast? with
      | some last =>
        if last.box_type.isAnonymousBlock then
          .mk bt d (cs.dropLast ++ [last.pushChild c])
        else
          .mk bt d (cs ++ [(LayoutBox.new .anonymousBlock).pushChild c])
      | Option.none => .mk bt d [(LayoutBox.new .anonymousBlock).pushChild c]

mutual

/-- The body of `build_layout_tree` from layout.rs for a node that is not
elided: create the root box from the display classification and fold the
children into it.  The `Display.none` arm of the source's root match is the
fatal `panic!("Root node has display: none.")`; it is surfaced as
`Option.none` by `build_layout_tree` below and is unreachable in recursive
calls, which only happen for block or inline children. -/
def build_node : StyledNode → LayoutBox
  | s@(.mk _ _ d cs) =>
    build_children
      (LayoutBox.new (match d with
        | .block => .blockNode s
        | _ => .inlineNode s)) cs

/-- The child loop of `build_layout_tree`: block children are pushed
directly, inline children go through the inline container, `display: none`
children are skipped together with their subtrees. -/
def build_children (root : LayoutBox) : List StyledNode → LayoutBox
  | [] => root
  | c :: cs =>
    match c.display with
    | .block => build_children (root.pushChild (build_node c)) cs
    | .inline => build_children (root.pushInline (build_node c)) cs
    | .none => build_children root cs

end

/-- `build_layout_tree` from layout.rs.  The source panics when the root
style node declares `display: none` (a fatal ConfigurationError); the panic
is modelled as `Option.none`. -/
def build_layout_tree (s : StyledNode) : Option LayoutBox :=
  match s.display with
  | .none => Option.none
  | _ => some (build_node s)

/-- Modelled from the spec: the font-metrics provider (the cairo `Context`
handle).  Only the fixed default font size is ever queried, so the advance
width of a text and the font ascent/descent are taken at that size. -/
structure FontCtx where
  advance : String → ℚ
  ascent : ℚ
  descent : ℚ

/-- The `sum` helper from layout.rs (fold of `+` over an iterator,
starting at 0). -/
def sum (l : List ℚ) : ℚ := l.foldl (· + ·) 0

/-- The `match (width == auto, margin_left == auto, margin_right == auto)`
block of `calculate_block_width`, applied to the post-guard values; returns
the used `(width, margin_left, margin_right)`. -/
def resolve_width_margins (width margin_left margin_right : Value) (underflow : ℚ) :
    Value × Value × Value :=
  let auto := Value.keyword "auto"
  match decide (width = auto), decide (margin_left = auto), decide (margin_right = auto) with
  | false, false, false =>
      (width, margin_left, Value.length (margin_right.to_px + underflow))
  | false, false, true  =>
      (width, margin_left, Value.length underflow)
  | false, true, false  =>
      (width, Value.length underflow, margin_right)
  | true, _, _ =>
      let ml := if margin_left = auto then Value.length 0 else margin_left
      let mr := if margin_right = auto then Value.length 0 else margin_right
      if underflow ≥ 0 then
        (Value.length underflow, ml, mr)
      else
        (Value.length 0, ml, Value.length (mr.to_px + underflow))
  | false, true, true   =>
      (width, Value.length (underflow / 2), Value.length (underflow / 2))

/-- The declared width of a style node: `value("width")` with initial value
`auto`. -/
def declaredWidth (style : StyledNode) : Value :=
  (style.value "width").getD (Value.keyword "auto")

/-- The pre-resolution total of `calculate_block_width`: the numeric sum of
the six edge contributions and the width, each `auto` contributing 0. -/
def block_width_total (style : StyledNode) : ℚ :=
  let zero := Value.length 0
  sum ([ style.lookup "margin-left" "margin" zero
       , style.lookup "margin-right" "margin" zero
       , style.lookup "border-left-width" "border-width" zero
       , style.lookup "border-right-width" "border-width" zero
       , style.lookup "padding-left" "padding" zero
       , style.lookup "padding-right" "padding" zero
       , declaredWidth style ].map Value.to_px)

/-- `calculate_block_width` from layout.rs, acting on the stored dimensions
`d` of the box. -/
def calculate_block_width (style : StyledNode) (containing_block : Dimensions)
    (d : Dimensions) : Dimensions :=
  let auto := Value.keyword "auto"
  let width := (style.value "width").getD auto
  let zero := Value.length 0
  let margin_left := style.lookup "margin-left" "margin" zero
  let margin_right := style.lookup "margin-right" "margin" zero
  let border_left := style.lookup "border-left-width" "border-width" zero
  let border_right := style.lookup "border-right-width" "border-width" zero
  let padding_left := style.lookup "padding-left" "padding" zero
  let padding_right := style.lookup "padding-right" "padding" zero
  let total := sum ([margin_left, margin_right, border_left, border_right,
                     padding_left, padding_right, width].map Value.to_px)
  -- If width is not auto and the total is wider than the container, treat
  -- auto margins as 0.
  let margin_left :=
    if width ≠ auto ∧ total > containing_block.content.width ∧ margin_left = auto then zero
    else margin_left
  let margin_right :=
    if width ≠ auto ∧ total > containing_block.content.width ∧ margin_right = auto then zero
    else margin_right
  let underflow := containing_block.content.width - total
  let r := resolve_width_margins width margin_left margin_right underflow
  { d with
      content.width := r.1.to_px
    , padding.left := padding_left.to_px
    , padding.right := padding_right.to_px
    , border.left := border_left.to_px
    , border.right := border_right.to_px
    , margin.left := r.2.1.to_px
    , margin.right := r.2.2.to_px }

/-- `calculate_block_position` from layout.rs. -/
def calculate_block_position (style : StyledNode) (containing_block : Dimensions)
    (d : Dimensions) : Dimensions :=
  let zero := Value.length 0
  let d := { d with
      margin.top := (style.lookup "margin-top" "margin" zero).to_px
    , margin.bottom := (style.lookup "margin-bottom" "margin" zero).to_px
    , border.top := (style.lookup "border-top-width" "border-width" zero).to_px
    , border.bottom := (style.lookup "border-bottom-width" "border-width" zero).to_px
    , padding.top := (style.lookup "padding-top" "padding" zero).to_px
    , padding.bottom := (style.lookup "padding-bottom" "padding" zero).to_px }
  { d with
      content.x := containing_block.content.x + d.margin.left + d.border.left + d.padding.left
    , content.y := containing_block.content.height + containing_block.content.y
        + d.margin.top + d.border.top + d.padding.top }

/-- `calculate_block_height` from layout.rs: an explicit px height
overrides the accumulated height, then the baseline correction shifts
`content.y` up by half of (line height − ascent − descent). -/
def calculate_block_height (ctx : FontCtx) (style : StyledNode) (d : Dimensions) : Dimensions :=
  let d :=
    match style.value "height" with
    | some (Value.length h) => { d with content.height := h }
    | _ => d
  let l := DEFAULT_LINE_HEIGHT - ctx.ascent - ctx.descent
  { d with content.y := d.content.y - l / 2 }

/-- `calculate_inline_position` from layout.rs.  Note that the source never
assigns `padding.left` or `padding.right`; the `content.x` formula reads the
stored `d.padding.left` value. -/
def calculate_inline_position (style : StyledNode) (containing_block : Dimensions)
    (d : Dimensions) : Dimensions :=
  let zero := Value.length 0
  let d := { d with
      margin.top := (style.lookup "margin-top" "margin" zero).to_px
    , margin.bottom := (style.lookup "margin-bottom" "margin" zero).to_px
    , margin.left := (style.lookup "margin-left" "margin" zero).to_px
    , margin.right := (style.lookup "margin-right" "margin" zero).to_px
    , border.top := (style.lookup "border-top-width" "border-width" zero).to_px
    , border.bottom := (style.lookup "border-bottom-width" "border-width" zero).to_px
    , border.left := (style.lookup "border-left-width" "border-width" zero).to_px
    , border.right := (style.lookup "border-right-width" "border-width" zero).to_px
    , padding.top := (style.lookup "padding-top" "padding" zero).to_px
    , padding.bottom := (style.lookup "padding-bottom" "padding" zero).to_px }
  { d with
      content.x := containing_block.content.width + containing_block.content.x
        + d.margin.left + d.border.left + d.padding.left
    , content.y := containing_block.content.height + containing_block.content.y
        + d.margin.top + d.border.top + d.padding.top }

/-- `layout_text` from layout.rs: on a text node, the content width becomes
the advance width of the text at the default font size, and the content
height becomes `DEFAULT_LINE_HEIGHT * (width as i32 / max_width.to_px() + 1)`
when `max_width.to_px() != 0`, else one line height.  Element nodes are
untouched. -/
def layout_text (ctx : FontCtx) (style : StyledNode) (saved_block : Dimensions)
    (d : Dimensions) : Dimensions :=
  match style.data with
  | .element => d
  | .text body =>
    let width := ctx.advance body
    let max_width := saved_block.content.width
    { d with
        content.width := width
      , content.height := DEFAULT_LINE_HEIGHT *
          (((if ratTrunc max_width ≠ 0 then
               (ratTrunc width).tdiv (ratTrunc max_width) + 1
             else 1) : ℤ) : ℚ) }

mutual

/-- `LayoutBox::layout` from layout.rs.  Block boxes run the four block
steps; inline boxes run inline positioning, the inline child loop (whose
final statement pins the content height to `DEFAULT_FONT_SIZE`), then text
layout; anonymous blocks copy the containing block's dimensions, then lay
out children left-to-right with a running content width starting at 0,
folding the content height through `max`. -/
def layout (ctx : FontCtx) (b : LayoutBox) (containing_block saved_block : Dimensions) :
    LayoutBox :=
  match b with
  | .mk bt d cs =>
    match bt with
    | .blockNode s =>
      let d1 := calculate_block_width s containing_block d
      let d2 := calculate_block_position s containing_block d1
      let r := layout_block_children ctx d2 cs
      let d3 := calculate_block_height ctx s r.1
      .mk bt d3 r.2
    | .inlineNode s =>
      let d1 := calculate_inline_position s containing_block d
      let r := inline_children_pass ctx d1 cs
      let d2 := { r.1 with content.height := DEFAULT_FONT_SIZE }
      let d3 := layout_text ctx s saved_block d2
      .mk bt d3 r.2
    | .anonymousBlock =>
      let r := anonymous_children_pass ctx
        { containing_block with content.width := 0 } containing_block saved_block cs
      .mk bt r.1 r.2

/-- The child loop of `layout_block_children`: each child is laid out with
the current dimensions as containing block, then the content height grows by
the child's margin-box height. -/
def layout_block_children (ctx : FontCtx) (d : Dimensions) :
    List LayoutBox → Dimensions × List LayoutBox
  | [] => (d, [])
  | c :: cs =>
    let c1 := layout ctx c d d
    let d1 := { d with content.height := d.content.height + c1.dimensions.margin_box.height }
    let r := layout_block_children ctx d1 cs
    (r.1, c1 :: r.2)

/-- The child loop of `layout_inline_children`: each child is laid out with
the current dimensions as containing and saved block, then the content width
grows by the child's margin-box width.  (The final height assignment of
`layout_inline_children` is applied by the caller.) -/
def inline_children_pass (ctx : FontCtx) (d : Dimensions) :
    List LayoutBox → Dimensions × List LayoutBox
  | [] => (d, [])
  | c :: cs =>
    let c1 := layout ctx c d d
    let d1 := { d with content.width := d.content.width + c1.dimensions.margin_box.width }
    let r := inline_children_pass ctx d1 cs
    (r.1, c1 :: r.2)

/-- The child loop of the `AnonymousBlock` arm of `layout`: `cbW` is the
mutated containing block (content width accumulating the children's
margin-box widths), `selfD` the anonymous box's own dimensions, whose
content height is folded through `max 0` with each child's margin-box
height (`vec![h, ch].fold(0, max)`). -/
def anonymous_children_pass (ctx : FontCtx) (cbW selfD saved : Dimensions) :
    List LayoutBox → Dimensions × List LayoutBox
  | [] => (selfD, [])
  | c :: cs =>
    let c1 := layout ctx c cbW saved
    let cb1 := { cbW with content.width := cbW.content.width + c1.dimensions.margin_box.width }
    let sd1 := { selfD with
        content.height := max (max 0 selfD.content.height) c1.dimensions.margin_box.height }
    let r := anonymous_children_pass ctx cb1 sd1 saved cs
    (r.1, c1 :: r.2)

end

/-- `layout_inline_children` from layout.rs: the child loop followed by the
unconditional `d.content.height = Au::from_f64_px(DEFAULT_FONT_SIZE)`. -/
def layout_inline_children (ctx : FontCtx) (d : Dimensions) (cs : List LayoutBox) :
    Dimensions × List LayoutBox :=
  let r := inline_children_pass ctx d cs
  ({ r.1 with content.height := DEFAULT_FONT_SIZE }, r.2)

/-- `layout_tree` from layout.rs: save the containing block, zero its
content height, build the tree (failing on a `display: none` root) and lay
it out. -/
def layout_tree (s : StyledNode) (ctx : FontCtx) (containing_block : Dimensions) :
    Option LayoutBox :=
  let saved_block := containing_block
  let cb := { containing_block with content.height := 0 }
  (build_layout_tree s).map (fun root => layout ctx root cb saved_block)

/-- All four edges of an `EdgeSizes` are nonnegative. -/
def EdgeSizes.nonneg (e : EdgeSizes) : Prop :=
  0 ≤ e.left ∧ 0 ≤ e.right ∧ 0 ≤ e.top ∧ 0 ≤ e.bottom

/-- A font-metrics context whose measurements are all zero (used for
concrete instances where text metrics are irrelevant). -/
def zeroCtx : FontCtx := ⟨fun _ => 0, 0, 0⟩

/-- A `Dimensions` value with margin-left −1 and everything else zero, as
produced for example by an overconstrained box whose margin-right absorbs a
negative underflow (here placed on the left for the containment test). -/
def negMarginDims : Dimensions := { Dimensions.zero with margin.left := -1 }

/-- A `Dimensions` value whose twelve edge sizes are all 1. -/
def unitEdgeDims : Dimensions :=
  { content := Rect.zero, padding := ⟨1, 1, 1, 1⟩, border := ⟨1, 1, 1, 1⟩
  , margin := ⟨1, 1, 1, 1⟩ }

/-- The spec's case (c) example style: width 50, margin-left auto,
margin-right 20, no border or padding. -/
def exBlockStyle : StyledNode :=
  .mk [("width", .length 50), ("margin-left", .keyword "auto"),
       ("margin-right", .length 20)] .element .block []

/-- A containing block with content width 100 and everything else zero. -/
def exCB100 : Dimensions := { Dimensions.zero with content.width := 100 }

/-- The spec's case (d) example style: width, margin-left and margin-right
all auto, no border or padding. -/
def exAutoStyle : StyledNode :=
  .mk [("width", .keyword "auto"), ("margin-left", .keyword "auto"),
       ("margin-right", .keyword "auto")] .element .block []

/-- A containing block with content width 200 and everything else zero. -/
def exCB200 : Dimensions := { Dimensions.zero with content.width := 200 }

/-- The line-count formula asserted by the spec sentence for text sizing,
`max(1, ceil(width / max_width))`; stated verbatim from the spec's words to
compare against `layout_text`. -/
def spec_text_line_count (w m : ℚ) : ℤ := max 1 ⌈w / m⌉

/-- A text-bearing inline style node. -/
def exTextStyle : StyledNode := .mk [] (.text "hello") .inline []

/-- A font context whose advance width is 340 for every string. -/
def ctx340 : FontCtx := ⟨fun _ => 340, 0, 0⟩

/-- A font context whose advance width is 100 for every string. -/
def ctx100 : FontCtx := ⟨fun _ => 100, 0, 0⟩

/-- Number of `AnonymousBlock` boxes in a list of children. -/
def anonCount (l : List LayoutBox) : ℕ :=
  l.countP (fun b => b.box_type.isAnonymousBlock)

/-- Whether the last box of a children list is an `AnonymousBlock` (the
test performed by `get_inline_container` on a block box). -/
def lastIsAnon (l : List LayoutBox) : Bool :=
  match l.getLast? with
  | some b => b.box_type.isAnonymousBlock
  | Option.none => false

/-- Number of maximal runs of consecutive inline-level entries in a display
list, ignoring `display: none` entries; the flag records whether the entry
just before the list was inline-level (i.e. whether a run is already
open). -/
def inline_runs : Bool → List Display → ℕ
  | _, [] => 0
  | prev, d :: ds =>
    match d with
    | .none => inline_runs prev ds
    | .block => inline_runs false ds
    | .inline => (if prev then 0 else 1) + inline_runs true ds

/-- An inline element style node with no props and no children. -/
def exInlineChild : StyledNode := .mk [] .element .inline []

/-- A block style node with two consecutive inline children. -/
def exInlinePair : StyledNode := .mk [] .element .block [exInlineChild, exInlineChild]

/-- The style-node references held by a box type: block and inline boxes
hold their style node, anonymous blocks hold none. -/
def btypeRefs : BoxType → List StyledNode
  | .blockNode s => [s]
  | .inlineNode s => [s]
  | .anonymousBlock => []

mutual

/-- All style-node references in a layout tree, in preorder. -/
def boxRefs : LayoutBox → List StyledNode
  | .mk bt _ cs => btypeRefs bt ++ boxListRefs cs

/-- All style-node references in a forest of layout boxes. -/
def boxListRefs : List LayoutBox → List StyledNode
  | [] => []
  | b :: bs => boxRefs b ++ boxListRefs bs

end

mutual

/-- The style nodes of the subtree rooted at `s` that survive `display:
none` elision, in preorder (`s` itself is included; children with `display:
none` are dropped together with their entire subtrees). -/
def visibleNodes : StyledNode → List StyledNode
  | s@(.mk _ _ _ cs) => s :: visibleList cs

/-- The visible style nodes contributed by a list of children. -/
def visibleList : List StyledNode → List StyledNode
  | [] => []
  | c :: cs =>
    (if c.display = Display.none then [] else visibleNodes c) ++ visibleList cs

end

/-- A `display: none` style node carrying a (hidden) inline subtree. -/
def exNoneSubtree : StyledNode := .mk [] .element .none [exInlineChild]

/-- A block root with a `display: none` child (whose subtree must be
elided) and a visible inline child. -/
def exTree4 : StyledNode := .mk [] .element .block [exNoneSubtree, exInlineChild]

/-- An inline layout box over `exInlineChild`, with zeroed dimensions. -/
def exInlineBox : LayoutBox := LayoutBox.new (BoxType.inlineNode exInlineChild)

/-- An anonymous block with one inline child. -/
def exAnonBox : LayoutBox := .mk BoxType.anonymousBlock Dimensions.zero [exInlineBox]

/-- A containing block with content height 100 and everything else zero. -/
def exCBh100 : Dimensions := { Dimensions.zero with content.height := 100 }

/-- An inline style node declaring `padding-left` and `padding-right` 7. -/
def exPadStyle : StyledNode :=
  .mk [("padding-left", .length 7), ("padding-right", .length 7)] .element .inline []

/-- An inline layout box over `exPadStyle`, with zeroed dimensions. -/
def exPadBox : LayoutBox := LayoutBox.new (BoxType.inlineNode exPadStyle)

-- Theorems ------------------------------------------------------------------

theorem expanded_by_containsRect (r : Rect) (e : EdgeSizes) (h : e.nonneg) :
    (r.expanded_by e).containsRect r := by
  obtain ⟨hl, hr, ht, hb⟩ := h
  refine ⟨by simp [Rect.expanded_by]; linarith, by simp [Rect.expanded_by]; linarith,
    by simp [Rect.expanded_by]; linarith, by simp [Rect.expanded_by]; linarith⟩

/-- Claim C5 (amended): for every `Dimensions` value the box chain is given
by the stated expansions, each adding exactly the stated edge deltas on both
axes; the containment chain `margin_box ⊇ border_box ⊇ padding_box ⊇
content` holds under the additional hypothesis that the corresponding edge
sizes are nonnegative (it fails for negative edges, see the
counterexample). -/
theorem box_expansion_containment (d : Dimensions) (r : Rect) (e : EdgeSizes) :
    ((r.expanded_by e).x = r.x - e.left ∧ (r.expanded_by e).y = r.y - e.top ∧
     (r.expanded_by e).width = r.width + e.left + e.right ∧
     (r.expanded_by e).height = r.height + e.top + e.bottom) ∧
    (d.padding_box = d.content.expanded_by d.padding ∧
     d.border_box = d.padding_box.expanded_by d.border ∧
     d.margin_box = d.border_box.expanded_by d.margin) ∧
    (d.padding.nonneg → d.padding_box.containsRect d.content) ∧
    (d.border.nonneg → d.border_box.containsRect d.padding_box) ∧
    (d.margin.nonneg → d.margin_box.containsRect d.border_box) := by
  refine ⟨⟨rfl, rfl, rfl, rfl⟩, ⟨rfl, rfl, rfl⟩, ?_, ?_, ?_⟩
  · exact fun h => expanded_by_containsRect _ _ h
  · exact fun h => expanded_by_containsRect _ _ h
  · exact fun h => expanded_by_containsRect _ _ h

/-- Claim C5, counterexample to the claim as stated: with a negative margin
(margin-left −1) the margin box does not contain the border box, so the
containment chain does not hold for every `Dimensions` value. -/
theorem box_containment_counterexample :
    ¬ negMarginDims.margin_box.containsRect negMarginDims.border_box := by
  intro h
  have h1 := h.1
  norm_num [negMarginDims, Dimensions.margin_box, Dimensions.border_box,
    Dimensions.padding_box, Rect.expanded_by, Dimensions.zero, Rect.zero,
    EdgeSizes.zero] at h1

/-- Claim C5, witness: the containment chain obtained from
`box_expansion_containment` at the all-ones edge sizes. -/
theorem box_expansion_containment_witness :
    unitEdgeDims.padding.nonneg ∧
    unitEdgeDims.margin_box.containsRect unitEdgeDims.border_box ∧
    unitEdgeDims.border_box.containsRect unitEdgeDims.padding_box ∧
    unitEdgeDims.padding_box.containsRect unitEdgeDims.content := by
  have hp : unitEdgeDims.padding.nonneg := by
    norm_num [unitEdgeDims, EdgeSizes.nonneg]
  have hb : unitEdgeDims.border.nonneg := by
    norm_num [unitEdgeDims, EdgeSizes.nonneg]
  have hm : unitEdgeDims.margin.nonneg := by
    norm_num [unitEdgeDims, EdgeSizes.nonneg]
  have h := box_expansion_containment unitEdgeDims Rect.zero EdgeSizes.zero
  exact ⟨hp, h.2.2.2.2 hm, h.2.2.2.1 hb, h.2.2.1 hp⟩

/-- Claim C9: building the layout tree fails (the source panics with the
fatal "Root node has display: none." error) exactly when the root style
node declares `display: none`; block and inline roots always produce a
tree. -/
theorem root_display_none_error (s : StyledNode) :
    build_layout_tree s = Option.none ↔ s.display = Display.none := by
  cases s with
  | mk props data disp cs =>
    cases disp <;> simp [build_layout_tree, StyledNode.display]

/-- Claim C7 (amended): after `layout_inline_children` runs, the box's
content height equals exactly `DEFAULT_FONT_SIZE` (16), regardless of how
many children were laid out.  The source pins the height to the default
font size, not to the default line height (the line height, 16 × 1.2, is
only used by `layout_text` and `calculate_block_height`). -/
theorem inline_container_height (ctx : FontCtx) (d : Dimensions) (cs : List LayoutBox) :
    (layout_inline_children ctx d cs).1.content.height = DEFAULT_FONT_SIZE := by
  simp [layout_inline_children]

/-- Claim C7, counterexample to the claim as stated: the content height
after `layout_inline_children` is 16, not one default line height
(16 × 1.2 = 96/5). -/
theorem inline_container_height_counterexample :
    (layout_inline_children zeroCtx Dimensions.zero []).1.content.height ≠
      DEFAULT_LINE_HEIGHT := by
  simp [layout_inline_children, inline_children_pass]
  norm_num [DEFAULT_FONT_SIZE, DEFAULT_LINE_HEIGHT]

theorem resolve_width_margins_sum (w ml mr : Value) (u : ℚ) :
    (resolve_width_margins w ml mr u).1.to_px
      + (resolve_width_margins w ml mr u).2.1.to_px
      + (resolve_width_margins w ml mr u).2.2.to_px
      = w.to_px + ml.to_px + mr.to_px + u := by
  by_cases hw : w = Value.keyword "auto" <;>
    by_cases hl : ml = Value.keyword "auto" <;>
      by_cases hr : mr = Value.keyword "auto" <;>
        simp [resolve_width_margins, hw, hl, hr] <;>
          (try split_ifs) <;> (try simp [hl, hr]) <;> ring

theorem calculate_block_width_sums (style : StyledNode) (cb d : Dimensions) :
    (calculate_block_width style cb d).content.width
      + (calculate_block_width style cb d).margin.left
      + (calculate_block_width style cb d).margin.right
      + (calculate_block_width style cb d).border.left
      + (calculate_block_width style cb d).border.right
      + (calculate_block_width style cb d).padding.left
      + (calculate_block_width style cb d).padding.right
      = cb.content.width := by
  have hsum := fun w ml mr u => resolve_width_margins_sum w ml mr u
  by_cases hw : (style.value "width").getD (Value.keyword "auto") = Value.keyword "auto" <;>
    by_cases hl : style.lookup "margin-left" "margin" (Value.length 0) = Value.keyword "auto" <;>
      by_cases hr : style.lookup "margin-right" "margin" (Value.length 0) = Value.keyword "auto" <;>
        simp [calculate_block_width, sum, hw, hl, hr] <;>
          (try split_ifs) <;>
            (try simp [hw, hl, hr] at hsum ⊢) <;>
              (try rw [hsum]) <;>
                (try simp) <;> ring

/-- Claim C1: for every block box whose width resolution is not in case
(d)'s negative branch (declared width auto with negative underflow), after
`calculate_block_width` the resolved content width plus margin-left,
margin-right, border-left, border-right, padding-left and padding-right
sums exactly to the containing block's content width.  (In the source this
closure in fact holds in all cases: the negative branch pushes the entire
deficit into margin-right, which preserves the sum.) -/
theorem block_width_closure (style : StyledNode) (cb d : Dimensions)
    (_h : ¬(declaredWidth style = Value.keyword "auto" ∧
            cb.content.width - block_width_total style < 0)) :
    (calculate_block_width style cb d).content.width
      + (calculate_block_width style cb d).margin.left
      + (calculate_block_width style cb d).margin.right
      + (calculate_block_width style cb d).border.left
      + (calculate_block_width style cb d).border.right
      + (calculate_block_width style cb d).padding.left
      + (calculate_block_width style cb d).padding.right
      = cb.content.width :=
  calculate_block_width_sums style cb d

/-- Claim C1, witness: the spec's case (c) example (containing width 100;
width 50, margin-left auto, margin-right 20, no border/padding) satisfies
the hypothesis, and `block_width_closure` yields the exact sum 100. -/
theorem block_width_closure_witness :
    (¬(declaredWidth exBlockStyle = Value.keyword "auto" ∧
       exCB100.content.width - block_width_total exBlockStyle < 0)) ∧
    (calculate_block_width exBlockStyle exCB100 Dimensions.zero).content.width
      + (calculate_block_width exBlockStyle exCB100 Dimensions.zero).margin.left
      + (calculate_block_width exBlockStyle exCB100 Dimensions.zero).margin.right
      + (calculate_block_width exBlockStyle exCB100 Dimensions.zero).border.left
      + (calculate_block_width exBlockStyle exCB100 Dimensions.zero).border.right
      + (calculate_block_width exBlockStyle exCB100 Dimensions.zero).padding.left
      + (calculate_block_width exBlockStyle exCB100 Dimensions.zero).padding.right
      = exCB100.content.width := by
  have hnot : ¬(declaredWidth exBlockStyle = Value.keyword "auto" ∧
      exCB100.content.width - block_width_total exBlockStyle < 0) := by
    intro hcontra
    have := hcontra.1
    simp [declaredWidth, exBlockStyle, StyledNode.value, StyledNode.props, List.find?] at this
  exact ⟨hnot, block_width_closure exBlockStyle exCB100 Dimensions.zero hnot⟩

/-- Claim C2: when the declared width is auto, `calculate_block_width`
first resolves any auto margin to 0; then, with `underflow` the containing
content width minus the auto-as-zero total, a non-negative underflow
becomes the content width, while a negative underflow clamps the content
width to 0 and is added to margin-right. -/
theorem block_width_auto_case (style : StyledNode) (cb d : Dimensions)
    (h : declaredWidth style = Value.keyword "auto") :
    (calculate_block_width style cb d).margin.left
      = (if style.lookup "margin-left" "margin" (Value.length 0) = Value.keyword "auto" then 0
         else (style.lookup "margin-left" "margin" (Value.length 0)).to_px) ∧
    (calculate_block_width style cb d).margin.right
      = (if style.lookup "margin-right" "margin" (Value.length 0) = Value.keyword "auto" then 0
         else (style.lookup "margin-right" "margin" (Value.length 0)).to_px)
        + (if cb.content.width - block_width_total style < 0
           then cb.content.width - block_width_total style else 0) ∧
    (calculate_block_width style cb d).content.width
      = (if 0 ≤ cb.content.width - block_width_total style
         then cb.content.width - block_width_total style else 0) := by
  have h' : (style.value "width").getD (Value.keyword "auto") = Value.keyword "auto" := by
    simpa [declaredWidth] using h
  refine ⟨?_, ?_, ?_⟩ <;>
    by_cases hl : style.lookup "margin-left" "margin" (Value.length 0) = Value.keyword "auto" <;>
      by_cases hr : style.lookup "margin-right" "margin" (Value.length 0) = Value.keyword "auto" <;>
        simp [calculate_block_width, resolve_width_margins, block_width_total,
          declaredWidth, sum, h', hl, hr] <;>
          (try split_ifs) <;>
            (try simp_all) <;> (try ring_nf) <;> (try linarith)

/-- Claim C2, witness: the spec's case (d) example (containing content
width 200; width, margin-left and margin-right all auto, no
border/padding): `block_width_auto_case` yields width 200 and both margins
0. -/
theorem block_width_auto_case_witness :
    declaredWidth exAutoStyle = Value.keyword "auto" ∧
    (calculate_block_width exAutoStyle exCB200 Dimensions.zero).content.width = 200 ∧
    (calculate_block_width exAutoStyle exCB200 Dimensions.zero).margin.left = 0 ∧
    (calculate_block_width exAutoStyle exCB200 Dimensions.zero).margin.right = 0 := by
  have hauto : declaredWidth exAutoStyle = Value.keyword "auto" := by
    simp [declaredWidth, exAutoStyle, StyledNode.value, StyledNode.props, List.find?]
  have h := block_width_auto_case exAutoStyle exCB200 Dimensions.zero hauto
  refine ⟨hauto, ?_, ?_, ?_⟩
  · rw [h.2.2]
    simp [block_width_total, declaredWidth, sum, exAutoStyle, exCB200,
      StyledNode.lookup, StyledNode.value, StyledNode.props, List.find?,
      Dimensions.zero, Rect.zero]
  · rw [h.1]
    simp [exAutoStyle, StyledNode.lookup, StyledNode.value, StyledNode.props, List.find?]
  · rw [h.2.1]
    simp [block_width_total, declaredWidth, sum, exAutoStyle, exCB200,
      StyledNode.lookup, StyledNode.value, StyledNode.props, List.find?,
      Dimensions.zero, Rect.zero]

/-- Claim C6 (amended): for every text-bearing node, `layout_text` sets
the content width to the advance width of the text at the fixed default
font size, and the content height to `DEFAULT_LINE_HEIGHT × (⌊width⌋ tdiv
⌊max_width⌋ + 1)` (truncated integer division plus one) when the truncated
containing max width is nonzero, else exactly one line height.  The spec's
`max(1, ceil(width / max_width))` formula agrees except when the truncated
width is an exact multiple of the truncated max width (see the
counterexample). -/
theorem layout_text_sizing (ctx : FontCtx) (style : StyledNode) (sv d : Dimensions)
    (body : String) (h : style.data = NodeType.text body) :
    (layout_text ctx style sv d).content.width = ctx.advance body ∧
    (layout_text ctx style sv d).content.height = DEFAULT_LINE_HEIGHT *
      (((if ratTrunc sv.content.width ≠ 0 then
           (ratTrunc (ctx.advance body)).tdiv (ratTrunc sv.content.width) + 1
         else 1) : ℤ) : ℚ) := by
  cases style with
  | mk props data disp cs =>
    cases data with
    | element => simp [StyledNode.data] at h
    | text b =>
      have hb : b = body := by simpa [StyledNode.data] using h
      subst hb
      exact ⟨by simp [layout_text, StyledNode.data], by simp [layout_text, StyledNode.data]⟩

/-- Claim C6, counterexample to the claim as stated: with advance width 100
and containing max width 100 the code computes `100 / 100 + 1 = 2` line
heights, while the claimed `max(1, ceil(100 / 100)) = 1`. -/
theorem layout_text_ceil_counterexample :
    (layout_text ctx100 exTextStyle exCB100 Dimensions.zero).content.height ≠
      DEFAULT_LINE_HEIGHT * ((spec_text_line_count 100 100 : ℤ) : ℚ) := by
  simp [layout_text, exTextStyle, ctx100, exCB100, StyledNode.data, ratTrunc,
    spec_text_line_count, Dimensions.zero, Rect.zero]
  norm_num [DEFAULT_LINE_HEIGHT, DEFAULT_FONT_SIZE]

/-- Claim C6, witness: the spec's example — advance width 340, containing
max width 100 — yields height 4 × `DEFAULT_LINE_HEIGHT` (340 / 100
integer-divided is 3, plus 1). -/
theorem layout_text_sizing_witness :
    exTextStyle.data = NodeType.text "hello" ∧
    (layout_text ctx340 exTextStyle exCB100 Dimensions.zero).content.width = 340 ∧
    (layout_text ctx340 exTextStyle exCB100 Dimensions.zero).content.height =
      DEFAULT_LINE_HEIGHT * 4 := by
  have hdata : exTextStyle.data = NodeType.text "hello" := rfl
  have h := layout_text_sizing ctx340 exTextStyle exCB100 Dimensions.zero "hello" hdata
  refine ⟨hdata, ?_, ?_⟩
  · rw [h.1]
    simp [ctx340]
  · rw [h.2]
    simp [ctx340, exCB100, Dimensions.zero, Rect.zero, ratTrunc]
    left
    have h3 : Int.tdiv 340 100 = 3 := by decide
    rw [h3]
    norm_num

theorem pushChild_box_type (b c : LayoutBox) : (b.pushChild c).box_type = b.box_type := by
  cases b with
  | mk bt d cs => rfl

theorem pushChild_children (b c : LayoutBox) :
    (b.pushChild c).children = b.children ++ [c] := by
  cases b with
  | mk bt d cs => rfl

theorem pushInline_box_type (b c : LayoutBox) : (b.pushInline c).box_type = b.box_type := by
  cases b with
  | mk bt d cs =>
    cases bt with
    | blockNode s =>
      cases h : cs.getLast? with
      | none => simp [LayoutBox.pushInline, h, LayoutBox.box_type]
      | some last =>
        cases last with
        | mk bt2 d2 cs2 =>
          cases bt2 <;>
            simp [LayoutBox.pushInline, h, LayoutBox.box_type, BoxType.isAnonymousBlock,
              LayoutBox.pushChild]
    | inlineNode s => rfl
    | anonymousBlock => rfl

theorem build_children_box_type (cs : List StyledNode) (root : LayoutBox) :
    (build_children root cs).box_type = root.box_type := by
  induction cs generalizing root with
  | nil => simp [build_children]
  | cons c cs ih =>
    cases hc : c.display with
    | block => rw [build_children, hc, ih, pushChild_box_type]
    | inline => rw [build_children, hc, ih, pushInline_box_type]
    | none => rw [build_children, hc, ih]

theorem build_node_not_anon (s : StyledNode) :
    (build_node s).box_type.isAnonymousBlock = false := by
  cases s with
  | mk props dt disp cs =>
    cases disp <;>
      · simp only [build_node]
        rw [build_children_box_type]
        rfl

theorem anonCount_append_one (l : List LayoutBox) (b : LayoutBox) :
    anonCount (l ++ [b]) = anonCount l + (if b.box_type.isAnonymousBlock then 1 else 0) := by
  simp [anonCount, List.countP_append, List.countP_cons]

theorem lastIsAnon_append_one (l : List LayoutBox) (b : LayoutBox) :
    lastIsAnon (l ++ [b]) = b.box_type.isAnonymousBlock := by
  simp [lastIsAnon, List.getLast?_concat]

theorem pushInline_anonCount (b c : LayoutBox) (t : StyledNode)
    (h : b.box_type = BoxType.blockNode t) :
    anonCount (b.pushInline c).children
        = anonCount b.children + (if lastIsAnon b.children then 0 else 1) ∧
      lastIsAnon (b.pushInline c).children = true := by
  cases b with
  | mk bt d cs =>
    have hbt : bt = BoxType.blockNode t := h
    subst hbt
    rcases List.eq_nil_or_concat cs with hnil | ⟨l, a, hconcat⟩
    · subst hnil
      constructor
      · simp [LayoutBox.pushInline, LayoutBox.children, anonCount, lastIsAnon,
          LayoutBox.new, LayoutBox.pushChild, List.countP_cons, BoxType.isAnonymousBlock,
          LayoutBox.box_type]
      · simp [LayoutBox.pushInline, LayoutBox.children, lastIsAnon,
          LayoutBox.new, LayoutBox.pushChild, BoxType.isAnonymousBlock, LayoutBox.box_type]
    · rw [List.concat_eq_append] at hconcat
      subst hconcat
      by_cases ha : a.box_type.isAnonymousBlock
      · have hpush : (LayoutBox.mk (BoxType.blockNode t) d (l ++ [a])).pushInline c =
            LayoutBox.mk (BoxType.blockNode t) d (l ++ [a.pushChild c]) := by
          simp [LayoutBox.pushInline, List.getLast?_concat, ha, List.dropLast_concat]
        rw [hpush]
        have hac : (a.pushChild c).box_type.isAnonymousBlock = true := by
          rw [pushChild_box_type]; exact ha
        constructor
        · simp [LayoutBox.children, anonCount_append_one, lastIsAnon_append_one, hac, ha]
        · simp [LayoutBox.children, lastIsAnon_append_one, hac]
      · have hpush : (LayoutBox.mk (BoxType.blockNode t) d (l ++ [a])).pushInline c =
            LayoutBox.mk (BoxType.blockNode t) d
              ((l ++ [a]) ++ [(LayoutBox.new .anonymousBlock).pushChild c]) := by
          simp [LayoutBox.pushInline, List.getLast?_concat, ha]
        rw [hpush]
        have hanon : ((LayoutBox.new .anonymousBlock).pushChild c).box_type.isAnonymousBlock
            = true := by
          rw [pushChild_box_type]; rfl
        constructor
        · simp only [LayoutBox.children]
          rw [anonCount_append_one]
          simp [lastIsAnon_append_one, hanon, ha]
        · simp only [LayoutBox.children]
          rw [lastIsAnon_append_one]
          exact hanon

theorem build_children_anonCount (cs : List StyledNode) (root : LayoutBox) (t : StyledNode)
    (h : root.box_type = BoxType.blockNode t) :
    anonCount (build_children root cs).children
      = anonCount root.children
        + inline_runs (lastIsAnon root.children) (cs.map StyledNode.display) := by
  induction cs generalizing root with
  | nil => simp [build_children, inline_runs]
  | cons c cs ih =>
    cases hc : c.display with
    | block =>
      rw [build_children, hc]
      have hbt : (root.pushChild (build_node c)).box_type = BoxType.blockNode t := by
        rw [pushChild_box_type]; exact h
      rw [ih _ hbt]
      simp [pushChild_children, anonCount_append_one, lastIsAnon_append_one,
        build_node_not_anon, inline_runs, hc]
    | inline =>
      rw [build_children, hc]
      have hbt : (root.pushInline (build_node c)).box_type = BoxType.blockNode t := by
        rw [pushInline_box_type]; exact h
      rw [ih _ hbt]
      obtain ⟨hcount, hlast⟩ := pushInline_anonCount root (build_node c) t h
      rw [hcount, hlast]
      simp [inline_runs, hc]
      cases hprev : lastIsAnon root.children <;> (simp [hprev, hc]; try omega)
    | none =>
      rw [build_children, hc]
      rw [ih _ h]
      simp [inline_runs, hc]

theorem inline_runs_all_inline_open (ds : List Display)
    (h : ∀ x ∈ ds, x = Display.inline) : inline_runs true ds = 0 := by
  induction ds with
  | nil => rfl
  | cons d ds ih =>
    have hd : d = Display.inline := h d (by simp)
    subst hd
    simp [inline_runs, ih (fun x hx => h x (by simp [hx]))]

/-- Claim C3: in the tree builder, among a block box's children all
consecutive inline-level style children are gathered into AnonymousBlock
wrappers, one per maximal run of consecutive inline children (`display:
none` children are skipped and do not break a run): the number of
AnonymousBlock children equals the number of maximal inline runs.  In
particular, N ≥ 2 consecutive inline children of one block parent yield
exactly 1 AnonymousBlock child, never N.  (Every block box of any built
layout tree is `build_node c` for a block-display style node `c`, so this
statement covers every block box of the output.) -/
theorem anonymous_block_grouping (s : StyledNode) (h : s.display = Display.block) :
    anonCount (build_node s).children
        = inline_runs false (s.children.map StyledNode.display) ∧
      ((∀ c ∈ s.children, c.display = Display.inline) → 2 ≤ s.children.length →
        anonCount (build_node s).children = 1) := by
  cases s with
  | mk props dt disp cs =>
    have hdisp : disp = Display.block := h
    subst hdisp
    have hmain : anonCount (build_node (StyledNode.mk props dt Display.block cs)).children
        = inline_runs false (cs.map StyledNode.display) := by
      rw [build_node]
      have hroot : (LayoutBox.new
          (BoxType.blockNode (StyledNode.mk props dt Display.block cs))).box_type
          = BoxType.blockNode (StyledNode.mk props dt Display.block cs) := rfl
      rw [build_children_anonCount cs _ _ hroot]
      simp [LayoutBox.new, LayoutBox.children, anonCount, lastIsAnon]
    refine ⟨hmain, fun hall hlen => ?_⟩
    simp only [StyledNode.children] at hall hlen hmain
    rw [hmain]
    cases cs with
    | nil => simp at hlen
    | cons c cs =>
      have hc : c.display = Display.inline := hall c (by simp)
      simp only [List.map_cons, inline_runs, hc]
      rw [inline_runs_all_inline_open]
      · simp
      · intro x hx
        simp only [List.mem_map] at hx
        obtain ⟨y, hy, rfl⟩ := hx
        exact hall y (by simp [hy])

/-- Claim C3, witness: a block parent with exactly two consecutive inline
children produces exactly one AnonymousBlock child. -/
theorem anonymous_block_grouping_witness :
    exInlinePair.display = Display.block ∧
    (∀ c ∈ exInlinePair.children, c.display = Display.inline) ∧
    2 ≤ exInlinePair.children.length ∧
    anonCount (build_node exInlinePair).children = 1 := by
  have hall : ∀ c ∈ exInlinePair.children, c.display = Display.inline := by
    intro c hc
    simp [exInlinePair, StyledNode.children] at hc
    subst hc
    rfl
  have hlen : 2 ≤ exInlinePair.children.length := by
    simp [exInlinePair, StyledNode.children]
  exact ⟨rfl, hall, hlen, (anonymous_block_grouping exInlinePair rfl).2 hall hlen⟩

theorem boxListRefs_append (l1 l2 : List LayoutBox) :
    boxListRefs (l1 ++ l2) = boxListRefs l1 ++ boxListRefs l2 := by
  induction l1 with
  | nil => simp [boxListRefs]
  | cons x l ih => simp [boxListRefs, ih]

theorem pushChild_refs (b c : LayoutBox) :
    boxRefs (b.pushChild c) = boxRefs b ++ boxRefs c := by
  cases b with
  | mk bt d cs => simp [LayoutBox.pushChild, boxRefs, boxListRefs_append, boxListRefs]

theorem pushInline_refs (b c : LayoutBox) :
    boxRefs (b.pushInline c) = boxRefs b ++ boxRefs c := by
  cases b with
  | mk bt d cs =>
    cases bt with
    | inlineNode s => simp [LayoutBox.pushInline, boxRefs, boxListRefs_append, boxListRefs]
    | anonymousBlock => simp [LayoutBox.pushInline, boxRefs, boxListRefs_append, boxListRefs]
    | blockNode s =>
      rcases List.eq_nil_or_concat cs with hnil | ⟨l, a, hconcat⟩
      · subst hnil
        simp [LayoutBox.pushInline, boxRefs, boxListRefs, LayoutBox.new,
          LayoutBox.pushChild, btypeRefs]
      · rw [List.concat_eq_append] at hconcat
        subst hconcat
        by_cases ha : a.box_type.isAnonymousBlock = true
        · have hpush : (LayoutBox.mk (BoxType.blockNode s) d (l ++ [a])).pushInline c =
              LayoutBox.mk (BoxType.blockNode s) d (l ++ [a.pushChild c]) := by
            simp [LayoutBox.pushInline, List.getLast?_concat, ha, List.dropLast_concat]
          rw [hpush]
          simp [boxRefs, boxListRefs_append, boxListRefs, pushChild_refs]
        · have hpush : (LayoutBox.mk (BoxType.blockNode s) d (l ++ [a])).pushInline c =
              LayoutBox.mk (BoxType.blockNode s) d
                ((l ++ [a]) ++ [(LayoutBox.new .anonymousBlock).pushChild c]) := by
            simp [LayoutBox.pushInline, List.getLast?_concat, ha]
          rw [hpush]
          have hnew : boxRefs ((LayoutBox.new .anonymousBlock).pushChild c) = boxRefs c := by
            rw [pushChild_refs]
            simp [LayoutBox.new, boxRefs, boxListRefs, btypeRefs]
          rw [boxRefs, boxRefs]
          simp [boxListRefs_append, boxListRefs, hnew]

theorem build_children_refs (cs : List StyledNode) (root : LayoutBox)
    (hmem : ∀ c ∈ cs, boxRefs (build_node c) = visibleNodes c) :
    boxRefs (build_children root cs) = boxRefs root ++ visibleList cs := by
  induction cs generalizing root with
  | nil => simp [build_children, visibleList]
  | cons c cs ih =>
    have hc0 := hmem c (by simp)
    have hrest : ∀ x ∈ cs, boxRefs (build_node x) = visibleNodes x :=
      fun x hx => hmem x (by simp [hx])
    cases hc : c.display with
    | block =>
      rw [build_children, hc, ih _ hrest, pushChild_refs, hc0]
      simp [visibleList, hc]
    | inline =>
      rw [build_children, hc, ih _ hrest, pushInline_refs, hc0]
      simp [visibleList, hc]
    | none =>
      rw [build_children, hc, ih _ hrest]
      simp [visibleList, hc]

theorem build_node_refs (s : StyledNode) : boxRefs (build_node s) = visibleNodes s := by
  suffices H : ∀ n (s : StyledNode), sizeOf s < n →
      boxRefs (build_node s) = visibleNodes s from H (sizeOf s + 1) s (by omega)
  intro n
  induction n with
  | zero => intro s hs; omega
  | succ n ih =>
    intro s hs
    cases s with
    | mk props dtt disp cs =>
      have hmem : ∀ c ∈ cs, boxRefs (build_node c) = visibleNodes c := by
        intro c hc
        apply ih
        have h1 : sizeOf c < sizeOf cs := List.sizeOf_lt_of_mem hc
        have h2 : sizeOf cs < sizeOf (StyledNode.mk props dtt disp cs) := by
          simp [StyledNode.mk.sizeOf_spec]
          try omega
        omega
      cases disp <;>
        · simp only [build_node]
          rw [build_children_refs _ _ hmem]
          simp [LayoutBox.new, boxRefs, boxListRefs, btypeRefs, visibleNodes]

theorem mem_visibleList (t : StyledNode) (cs : List StyledNode)
    (h : t ∈ visibleList cs) :
    ∃ c ∈ cs, c.display ≠ Display.none ∧ t ∈ visibleNodes c := by
  induction cs with
  | nil => simp [visibleList] at h
  | cons c cs ih =>
    rw [visibleList] at h
    rcases List.mem_append.mp h with h1 | h1
    · by_cases hc : c.display = Display.none
      · simp [hc] at h1
      · exact ⟨c, by simp, hc, by simpa [hc] using h1⟩
    · obtain ⟨c1, hc1, hd1, ht1⟩ := ih h1
      exact ⟨c1, by simp [hc1], hd1, ht1⟩

theorem visibleNodes_display (s : StyledNode) (hs : s.display ≠ Display.none) :
    ∀ t ∈ visibleNodes s, t.display ≠ Display.none := by
  suffices H : ∀ n (s : StyledNode), sizeOf s < n → s.display ≠ Display.none →
      ∀ t ∈ visibleNodes s, t.display ≠ Display.none from
    fun t ht => H (sizeOf s + 1) s (by omega) hs t ht
  intro n
  induction n with
  | zero => intro s hs0; omega
  | succ n ih =>
    intro s hsize hdisp t ht
    cases s with
    | mk props dtt disp cs =>
      rw [visibleNodes] at ht
      rcases List.mem_cons.mp ht with rfl | h1
      · exact hdisp
      · obtain ⟨c, hc, hd, ht1⟩ := mem_visibleList t cs h1
        apply ih c _ hd t ht1
        have h1s : sizeOf c < sizeOf cs := List.sizeOf_lt_of_mem hc
        have h2s : sizeOf cs < sizeOf (StyledNode.mk props dtt disp cs) := by
          simp [StyledNode.mk.sizeOf_spec]
          try omega
        omega

/-- Claim C4: for every style tree accepted by the tree builder, the style
nodes represented in the output layout tree are exactly the visible
closure of the root — a node is reached only through chains of non-`none`
children — so a `display: none` style node, together with its entire
subtree, produces no LayoutBox anywhere in the output at any depth. -/
theorem display_none_elision (s : StyledNode) (b : LayoutBox)
    (h : build_layout_tree s = some b) :
    boxRefs b = visibleNodes s ∧ ∀ t ∈ boxRefs b, t.display ≠ Display.none := by
  have hdisp : s.display ≠ Display.none := by
    intro hc
    rw [build_layout_tree, hc] at h
    exact Option.noConfusion h
  have hb : b = build_node s := by
    cases s with
    | mk props dtt disp cs =>
      have hd2 : disp ≠ Display.none := hdisp
      rw [build_layout_tree] at h
      cases disp with
      | block => exact (Option.some.injEq _ _ ▸ h).symm
      | inline => exact (Option.some.injEq _ _ ▸ h).symm
      | none => exact absurd rfl hd2
  subst hb
  refine ⟨build_node_refs s, ?_⟩
  rw [build_node_refs s]
  exact visibleNodes_display s hdisp

/-- Claim C4, witness: a block root with a `display: none` child (itself
carrying an inline subtree) and a visible inline child; the built tree's
references are exactly the visible closure and contain no `display: none`
node. -/
theorem display_none_elision_witness :
    build_layout_tree exTree4 = some (build_node exTree4) ∧
    boxRefs (build_node exTree4) = visibleNodes exTree4 ∧
    ∀ t ∈ boxRefs (build_node exTree4), t.display ≠ Display.none := by
  have hb : build_layout_tree exTree4 = some (build_node exTree4) := rfl
  have h := display_none_elision exTree4 (build_node exTree4) hb
  exact ⟨hb, h.1, h.2⟩

theorem anonymous_children_pass_dims (ctx : FontCtx) (sv : Dimensions) (cs : List LayoutBox) :
    ∀ cbW selfD : Dimensions,
      (anonymous_children_pass ctx cbW selfD sv cs).1
        = { selfD with content.height :=
              (List.foldl (fun a h => max (max 0 a) h) selfD.content.height
                ((anonymous_children_pass ctx cbW selfD sv cs).2.map
                  (fun c => c.dimensions.margin_box.height))) } := by
  induction cs with
  | nil => intro cbW selfD; simp [anonymous_children_pass]
  | cons c cs ih =>
    intro cbW selfD
    simp only [anonymous_children_pass]
    rw [ih]
    rfl

/-- Claim C8 (amended): for every AnonymousBlock box, `layout` copies the
containing block's dimensions into the box (content position and width,
padding, border and margin are taken over unmodified) and lays out its
children left-to-right, seeding each next child's x-offset from a running
content width that starts at 0; the final content height is the left fold
of `max (max 0 ·) ·` over the children's margin-box heights starting from
the inherited containing content height — so it is the maximum of 0, the
inherited height and the children's margin-box heights (for one or more
children), not their sum, but not merely the maximum among the children
(see the counterexample). -/
theorem anonymous_block_layout (ctx : FontCtx) (b : LayoutBox) (cb sv : Dimensions)
    (h : b.box_type = BoxType.anonymousBlock) :
    (layout ctx b cb sv).dimensions.content.x = cb.content.x ∧
    (layout ctx b cb sv).dimensions.content.y = cb.content.y ∧
    (layout ctx b cb sv).dimensions.content.width = cb.content.width ∧
    (layout ctx b cb sv).dimensions.padding = cb.padding ∧
    (layout ctx b cb sv).dimensions.border = cb.border ∧
    (layout ctx b cb sv).dimensions.margin = cb.margin ∧
    (layout ctx b cb sv).children
      = (anonymous_children_pass ctx { cb with content.width := 0 } cb sv b.children).2 ∧
    (layout ctx b cb sv).dimensions.content.height
      = List.foldl (fun a h => max (max 0 a) h) cb.content.height
          ((layout ctx b cb sv).children.map (fun c => c.dimensions.margin_box.height)) := by
  cases b with
  | mk bt d cs =>
    have hbt : bt = BoxType.anonymousBlock := h
    subst hbt
    simp only [layout, LayoutBox.dimensions, LayoutBox.children]
    rw [anonymous_children_pass_dims]
    simp [LayoutBox.children, LayoutBox.dimensions]

/-- Claim C8, counterexample to the claim as stated: an anonymous block
whose containing block has content height 100 and whose single inline child
has margin-box height 16 (one default font size) ends with content height
100 — the inherited containing height — not 16, the maximum margin-box
height among its children. -/
theorem anonymous_height_counterexample :
    (layout zeroCtx exAnonBox exCBh100 exCBh100).dimensions.content.height = 100 ∧
    ((layout zeroCtx exAnonBox exCBh100 exCBh100).children.map
        (fun c => c.dimensions.margin_box.height)).foldl max 0 = 16 ∧
    (layout zeroCtx exAnonBox exCBh100 exCBh100).dimensions.content.height ≠
      ((layout zeroCtx exAnonBox exCBh100 exCBh100).children.map
        (fun c => c.dimensions.margin_box.height)).foldl max 0 := by
  have hlay : (layout zeroCtx exAnonBox exCBh100 exCBh100) =
      (layout zeroCtx exAnonBox exCBh100 exCBh100) := rfl
  refine ⟨?_, ?_, ?_⟩ <;>
    simp [exAnonBox, exInlineBox, exInlineChild, exCBh100, zeroCtx, layout,
      anonymous_children_pass, inline_children_pass, calculate_inline_position,
      layout_text, StyledNode.lookup, StyledNode.value, StyledNode.props,
      StyledNode.data, List.find?, LayoutBox.new, LayoutBox.dimensions,
      LayoutBox.children, LayoutBox.box_type, Dimensions.zero, Rect.zero,
      EdgeSizes.zero, Dimensions.margin_box, Dimensions.border_box,
      Dimensions.padding_box, Rect.expanded_by, DEFAULT_FONT_SIZE,
      DEFAULT_LINE_HEIGHT, max_def] <;>
    norm_num

/-- Claim C8, witness: `anonymous_block_layout` applied to the concrete
anonymous box with one inline child and containing content height 100. -/
theorem anonymous_block_layout_witness :
    exAnonBox.box_type = BoxType.anonymousBlock ∧
    (layout zeroCtx exAnonBox exCBh100 exCBh100).dimensions.content.width
      = exCBh100.content.width ∧
    (layout zeroCtx exAnonBox exCBh100 exCBh100).dimensions.content.height
      = List.foldl (fun a h => max (max 0 a) h) exCBh100.content.height
          ((layout zeroCtx exAnonBox exCBh100 exCBh100).children.map
            (fun c => c.dimensions.margin_box.height)) := by
  have h := anonymous_block_layout zeroCtx exAnonBox exCBh100 exCBh100 rfl
  exact ⟨rfl, h.2.2.1, h.2.2.2.2.2.2.2⟩

theorem inline_children_pass_padding (ctx : FontCtx) (cs : List LayoutBox) :
    ∀ d : Dimensions, (inline_children_pass ctx d cs).1.padding = d.padding := by
  induction cs with
  | nil => intro d; simp [inline_children_pass]
  | cons c cs ih =>
    intro d
    simp only [inline_children_pass]
    rw [ih]

theorem inline_children_pass_x (ctx : FontCtx) (cs : List LayoutBox) :
    ∀ d : Dimensions, (inline_children_pass ctx d cs).1.content.x = d.content.x := by
  induction cs with
  | nil => intro d; simp [inline_children_pass]
  | cons c cs ih =>
    intro d
    simp only [inline_children_pass]
    rw [ih]

theorem layout_text_frame (ctx : FontCtx) (style : StyledNode) (sv d : Dimensions) :
    (layout_text ctx style sv d).padding = d.padding ∧
    (layout_text ctx style sv d).content.x = d.content.x := by
  cases hd : style.data with
  | element => simp [layout_text, hd]
  | text body => simp [layout_text, hd]

theorem calculate_inline_position_padding (style : StyledNode) (cb d : Dimensions) :
    (calculate_inline_position style cb d).padding.left = d.padding.left ∧
    (calculate_inline_position style cb d).padding.right = d.padding.right ∧
    (calculate_inline_position style cb d).content.x
      = cb.content.width + cb.content.x
        + (style.lookup "margin-left" "margin" (Value.length 0)).to_px
        + (style.lookup "border-left-width" "border-width" (Value.length 0)).to_px
        + d.padding.left :=
  ⟨rfl, rfl, rfl⟩

/-- Claim C10: for every inline box, `layout` (whose inline arm begins with
`calculate_inline_position`) never writes `padding.left` or
`padding.right`: after inline layout both fields keep their prior
(zero-initialized) value for every style node, declared `padding-left` or
`padding-right` included; moreover the resolved `content.x` is computed
from the stored `d.padding.left`, not from any declared padding, so
declared horizontal padding affects neither this box's position nor its
padding/border/margin boxes. -/
theorem inline_padding_frame (ctx : FontCtx) (b : LayoutBox) (s : StyledNode)
    (cb sv : Dimensions) (h : b.box_type = BoxType.inlineNode s) :
    (layout ctx b cb sv).dimensions.padding.left = b.dimensions.padding.left ∧
    (layout ctx b cb sv).dimensions.padding.right = b.dimensions.padding.right ∧
    (layout ctx b cb sv).dimensions.content.x
      = cb.content.width + cb.content.x
        + (s.lookup "margin-left" "margin" (Value.length 0)).to_px
        + (s.lookup "border-left-width" "border-width" (Value.length 0)).to_px
        + b.dimensions.padding.left := by
  cases b with
  | mk bt d cs =>
    have hbt : bt = BoxType.inlineNode s := h
    subst hbt
    simp only [layout, LayoutBox.dimensions]
    obtain ⟨hcp, hcx⟩ := layout_text_frame ctx s sv
      { (inline_children_pass ctx (calculate_inline_position s cb d) cs).1 with
          content.height := DEFAULT_FONT_SIZE }
    obtain ⟨hp1, hp2, hx⟩ := calculate_inline_position_padding s cb d
    refine ⟨?_, ?_, ?_⟩
    · rw [hcp]
      show (inline_children_pass ctx (calculate_inline_position s cb d) cs).1.padding.left = _
      rw [inline_children_pass_padding]
      exact hp1
    · rw [hcp]
      show (inline_children_pass ctx (calculate_inline_position s cb d) cs).1.padding.right = _
      rw [inline_children_pass_padding]
      exact hp2
    · rw [hcx]
      show (inline_children_pass ctx (calculate_inline_position s cb d) cs).1.content.x = _
      rw [inline_children_pass_x]
      exact hx

/-- Claim C10, witness: an inline box declaring `padding-left: 7px` and
`padding-right: 7px` still has zero horizontal padding after layout, and
its `content.x` equals the containing width 100 plus the (zero) margins and
borders — the declared padding contributes nothing. -/
theorem inline_padding_frame_witness :
    exPadBox.box_type = BoxType.inlineNode exPadStyle ∧
    (layout zeroCtx exPadBox exCB100 exCB100).dimensions.padding.left = 0 ∧
    (layout zeroCtx exPadBox exCB100 exCB100).dimensions.padding.right = 0 ∧
    (layout zeroCtx exPadBox exCB100 exCB100).dimensions.content.x = 100 := by
  have h := inline_padding_frame zeroCtx exPadBox exPadStyle exCB100 exCB100 rfl
  refine ⟨rfl, ?_, ?_, ?_⟩
  · rw [h.1]
    rfl
  · rw [h.2.1]
    rfl
  · rw [h.2.2]
    simp [exPadStyle, exPadBox, exCB100, StyledNode.lookup, StyledNode.value,
      StyledNode.props, List.find?, LayoutBox.new, LayoutBox.dimensions,
      Dimensions.zero, Rect.zero, EdgeSizes.zero]

end Naglfar
